import Mathlib

/-!
Shallow embedding of the spring-embedder graph layout engine
(`src/lib/graph.js`, `src/lib/vector-math.js`).

Modelling conventions:
  * JavaScript double-precision numbers are modelled by real numbers `ℝ`;
    `Math.sqrt` is `Real.sqrt` and `Math.log` is `Real.log`.
  * A 2D vector `{x, y}` is the structure `Vec`.
  * An adjacency list `number[][]` is a `List (List Nat)`.
  * `Math.random` is modelled by an oracle `rand : Nat → ℝ` giving the
    stream of successive draws; the n-th call to the source's random
    number generator returns `rand n`.
  * The generator function `runLayout` is modelled as the finite list of
    all snapshots it yields (initial snapshot plus one per loop pass);
    the JavaScript loop `for (let i = 0; i < iterations; i++)` with an
    integer `iterations` executes `iterations.toNat` passes, which is 0
    when `iterations` is negative.
  * JavaScript array indexing `positions[i]`, which yields `undefined`
    out of range, is modelled by `List.getD` with a default; the claims
    only evaluate it in range.
-/

/-- A two dimensional vector with real coordinates, as in vector-math.js. -/
@[ext]
structure Vec where
  x : ℝ
  y : ℝ

namespace V

/-- vector-math.js `add`: component-wise sum. -/
noncomputable def add (u v : Vec) : Vec :=
  ⟨u.x + v.x, u.y + v.y⟩

/-- vector-math.js `sub`: component-wise difference. -/
noncomputable def sub (u v : Vec) : Vec :=
  ⟨u.x - v.x, u.y - v.y⟩

/-- vector-math.js `scalarMult`: scale both components by `a` (curried in the source). -/
noncomputable def scalarMult (a : ℝ) (v : Vec) : Vec :=
  ⟨a * v.x, a * v.y⟩

/-- vector-math.js `length`: Euclidean norm `sqrt (x*x + y*y)`. -/
noncomputable def length (v : Vec) : ℝ :=
  Real.sqrt (v.x * v.x + v.y * v.y)

/-- vector-math.js `norm`: `scalarMult (1 / length v) v`, division unguarded. -/
noncomputable def norm (v : Vec) : Vec :=
  scalarMult (1 / length v) v

end V

/-- graph.js `getVertices`: `adjacencyList.map((_, vertex) => vertex)`,
the list of indices of the adjacency rows. -/
def getVertices (adjacencyList : List (List Nat)) : List Nat :=
  adjacencyList.enum.map (fun p => p.1)

/-- graph.js `getEdges`: flatten every row into `(from, to)` pairs,
row-major, keeping per-row target order. -/
def getEdges (adjacencyList : List (List Nat)) : List (Nat × Nat) :=
  adjacencyList.enum.flatMap (fun p => p.2.map (fun t => (p.1, t)))

/-- graph.js `getAdjacentVertices`: outbound targets `adjacencyList[vertex] || []`
followed by the inbound sources, one per row whose target list contains `vertex`. -/
def getAdjacentVertices (adjacencyList : List (List Nat)) (vertex : Nat) : List Nat :=
  let outbound := adjacencyList.getD vertex []
  let inbound := adjacencyList.enum.flatMap (fun p =>
    if vertex ∈ p.2 then [p.1] else [])
  outbound ++ inbound

/-- graph.js `calculateSpringForce`:
`magnitude = optimumDistance * log (length (v - u) / optimumDistance)`, applied to
the unit vector from `u` to `v`. -/
noncomputable def calculateSpringForce (u v : Vec) (optimumDistance : ℝ) : Vec :=
  let uToV := V.sub v u
  let magnitude := optimumDistance * Real.log (V.length uToV / optimumDistance)
  V.scalarMult magnitude (V.norm uToV)

/-- The scalar magnitude of the spring force of graph.js `calculateSpringForce`. -/
noncomputable def springMagnitude (u v : Vec) (optimumDistance : ℝ) : ℝ :=
  optimumDistance * Real.log (V.length (V.sub v u) / optimumDistance)

/-- graph.js `calculateRepulsion`:
`magnitude = optimumDistance / length (u - v)`, applied to the unit vector
from `v` to `u`. -/
noncomputable def calculateRepulsion (u v : Vec) (optimumDistance : ℝ) : Vec :=
  let uToV := V.sub u v
  let magnitude := optimumDistance / V.length uToV
  V.scalarMult magnitude (V.norm uToV)

/-- The zero vector, the `{x: 0, y: 0}` accumulator seed of graph.js. -/
noncomputable def vecZero : Vec := ⟨0, 0⟩

/-- graph.js `makeLayout`: one relaxation step.  For every vertex, sum spring
forces over its adjacent vertices and repulsion forces over all other
vertices, damp the sum by 0.4 and add it to the previous position. -/
noncomputable def makeLayout (adjacencyList : List (List Nat)) (optimumDistance : ℝ)
    (positions : List Vec) : List Vec :=
  let damping : ℝ := 0.4
  let vertices := getVertices adjacencyList
  vertices.map (fun vertex =>
    let adjacentVertices := getAdjacentVertices adjacencyList vertex
    let localAttraction := adjacentVertices.foldl (fun acc adjacent =>
      V.add acc (calculateSpringForce (positions.getD vertex vecZero)
        (positions.getD adjacent vecZero) optimumDistance)) vecZero
    let globalRepulsion := (vertices.filter (fun current => current != vertex)).foldl
      (fun acc global =>
        V.add acc (calculateRepulsion (positions.getD vertex vecZero)
          (positions.getD global vecZero) optimumDistance)) vecZero
    let force := V.scalarMult damping (V.add localAttraction globalRepulsion)
    V.add force (positions.getD vertex vecZero))

/-- graph.js `runLayout`, initial placement: each vertex draws its x and then
its y coordinate from the random stream, `(rand - 0.5) * 2 * vertexDistance`. -/
noncomputable def initPositions (adjacencyList : List (List Nat)) (vertexDistance : ℝ)
    (rand : Nat → ℝ) : List Vec :=
  (getVertices adjacencyList).map (fun vertex =>
    ⟨(rand (2 * vertex) - 0.5) * 2 * vertexDistance,
     (rand (2 * vertex + 1) - 0.5) * 2 * vertexDistance⟩)

/-- The snapshots yielded by the `for` loop of graph.js `runLayout`:
`n` further applications of the step function, each yielded in turn. -/
noncomputable def loopSnapshots (layout : List Vec → List Vec) (positions : List Vec) :
    Nat → List (List Vec)
  | 0 => []
  | n + 1 =>
    let next := layout positions
    next :: loopSnapshots layout next n

/-- graph.js `runLayout`, as the list of every snapshot the generator yields:
the random initial snapshot followed by one snapshot per loop pass.  The
source performs no validation of `vertexDistance` or `iterations`; a negative
`iterations` merely gives zero loop passes. -/
noncomputable def runLayout (adjacencyList : List (List Nat)) (vertexDistance : ℝ)
    (iterations : ℤ) (rand : Nat → ℝ) : List (List Vec) :=
  let layout := makeLayout adjacencyList vertexDistance
  let positions := initPositions adjacencyList vertexDistance rand
  positions :: loopSnapshots layout positions iterations.toNat

/-- The adjacency list of the repository's entry point (the 11-vertex demo graph). -/
def exampleAdjacency : List (List Nat) :=
  [[], [0, 2], [3, 4, 5], [6], [], [], [7, 8], [], [9, 10], [], []]

/-- Stated from the spec (section 4.4, step 1): `localAttraction` is the vector
sum of `springForce(pos[v], pos[n], optimumDistance)` over every neighbor `n`
of `v`, accumulated left to right from the zero vector. -/
noncomputable def specLocalAttraction (adjacencyList : List (List Nat)) (optimumDistance : ℝ)
    (positions : List Vec) (v : Nat) : Vec :=
  (getAdjacentVertices adjacencyList v).foldl (fun acc n =>
    V.add acc (calculateSpringForce (positions.getD v vecZero)
      (positions.getD n vecZero) optimumDistance)) vecZero

/-- Stated from the spec (section 4.4, step 2): `globalRepulsion` is the vector
sum of `repulsionForce(pos[v], pos[w], optimumDistance)` over every other
vertex `w != v` of the graph, accumulated left to right from the zero vector. -/
noncomputable def specGlobalRepulsion (adjacencyList : List (List Nat)) (optimumDistance : ℝ)
    (positions : List Vec) (v : Nat) : Vec :=
  ((List.range adjacencyList.length).filter (fun w => w != v)).foldl (fun acc w =>
    V.add acc (calculateRepulsion (positions.getD v vecZero)
      (positions.getD w vecZero) optimumDistance)) vecZero

/-! ## Helper lemmas -/

theorem V.add_comm (u v : Vec) : V.add u v = V.add v u := by
  unfold V.add
  ext <;> ring

theorem getVertices_eq_range (adjacencyList : List (List Nat)) :
    getVertices adjacencyList = List.range adjacencyList.length := by
  unfold getVertices
  exact List.enum_map_fst adjacencyList

theorem getD_map_range {β : Type} (f : Nat → β) {N i : Nat} (h : i < N) (d : β) :
    ((List.range N).map f).getD i d = f i := by
  simp [List.getD_eq_getElem?_getD, List.getElem?_map, List.getElem?_range h]

theorem count_filter_eq (a : Nat) (p : Nat → Bool) (l : List Nat) :
    (l.filter p).count a = if p a then l.count a else 0 := by
  by_cases h : p a
  · rw [if_pos h, List.count_filter h]
  · rw [if_neg h, List.count_eq_zero]
    intro hmem
    exact h (List.of_mem_filter hmem)

theorem count_inbound (v w : Nat) : ∀ (l : List (List Nat)) (n : Nat),
    ((l.enumFrom n).flatMap (fun p => if v ∈ p.2 then [p.1] else [])).count w
      = if n ≤ w ∧ w - n < l.length ∧ v ∈ l.getD (w - n) [] then 1 else 0
  | [], n => by simp
  | a :: l, n => by
    have ih := count_inbound v w l (n + 1)
    rw [show (a :: l).enumFrom n = (n, a) :: l.enumFrom (n + 1) from rfl]
    rw [List.flatMap_cons, List.count_append, ih]
    by_cases hw : w = n
    · subst hw
      by_cases hv : v ∈ a
      · simp [hv]
      · simp [hv]
    · have hcount : (if v ∈ a then [n] else [] : List Nat).count w = 0 := by
        by_cases hv : v ∈ a <;> simp [hv, List.count_cons, hw]
      rw [hcount]
      by_cases hle : n + 1 ≤ w
      · have h1 : w - n = (w - (n + 1)) + 1 := by omega
        have h2 : (a :: l).getD (w - n) [] = l.getD (w - (n + 1)) [] := by
          rw [h1]; rfl
        have h3 : (n ≤ w ∧ w - n < (a :: l).length ∧ v ∈ (a :: l).getD (w - n) [])
            ↔ (n + 1 ≤ w ∧ w - (n + 1) < l.length ∧ v ∈ l.getD (w - (n + 1)) []) := by
          rw [h2]
          simp only [List.length_cons]
          constructor
          · rintro ⟨hx, hy, hz⟩
            exact ⟨by omega, by omega, hz⟩
          · rintro ⟨hx, hy, hz⟩
            exact ⟨by omega, by omega, hz⟩
        rw [if_congr h3 rfl rfl, Nat.zero_add]
      · have hnw : ¬ n ≤ w := by omega
        simp [hnw, hle]

theorem loopSnapshots_length (layout : List Vec → List Vec) :
    ∀ (n : Nat) (positions : List Vec), (loopSnapshots layout positions n).length = n
  | 0, _ => rfl
  | n + 1, positions => by
    rw [show loopSnapshots layout positions (n + 1)
        = layout positions :: loopSnapshots layout (layout positions) n from rfl]
    rw [List.length_cons, loopSnapshots_length layout n]

theorem loopSnapshots_getD (layout : List Vec → List Vec) :
    ∀ (n : Nat) (positions : List Vec) (i : Nat), i < n →
      (loopSnapshots layout positions n).getD i [] = layout^[i + 1] positions
  | 0, _, i, h => absurd h (Nat.not_lt_zero i)
  | n + 1, positions, 0, _ => by
    rw [show loopSnapshots layout positions (n + 1)
        = layout positions :: loopSnapshots layout (layout positions) n from rfl]
    rfl
  | n + 1, positions, i + 1, h => by
    rw [show loopSnapshots layout positions (n + 1)
        = layout positions :: loopSnapshots layout (layout positions) n from rfl]
    rw [List.getD_cons_succ,
      loopSnapshots_getD layout n (layout positions) i (Nat.lt_of_succ_lt_succ h)]
    rw [← Function.iterate_succ_apply, Function.iterate_succ_apply]

/-! ## Claims -/

/-- C3 counterexample: the claim says `edges` yields exactly 8 pairs on the demo
adjacency list, but the code yields 10 pairs there. -/
theorem C3_edges_count_counterexample :
    (getEdges exampleAdjacency).length = 10 ∧ (getEdges exampleAdjacency).length ≠ 8 := by
  constructor <;> decide

/-- C3 (amended): `edges` on the demo adjacency list
`[[],[0,2],[3,4,5],[6],[],[],[7,8],[],[9,10],[],[]]` yields exactly 10 pairs,
namely (1,0),(1,2),(2,3),(2,4),(2,5),(3,6),(6,7),(6,8),(8,9),(8,10), in
row-major order over the adjacency rows and per-row target order within a row. -/
theorem C3_edges_of_example :
    getEdges exampleAdjacency
      = [(1, 0), (1, 2), (2, 3), (2, 4), (2, 5), (3, 6), (6, 7), (6, 8), (8, 9), (8, 10)] := by
  decide

/-- C6: the neighbor sequence of a vertex is its outbound targets followed by
the inbound sources, and each vertex `w` occurs once per occurrence of `w` in
the outbound row plus exactly once more when `v` appears anywhere in row `w`
(an inbound duplicate is counted only once); on the demo graph, vertex 2 has
neighbors outbound 3, 4, 5 then inbound 1, and in `[[1,1],[0,0]]` the duplicate
outbound edge of vertex 0 counts twice while the duplicate inbound edge counts
once, giving three occurrences of vertex 1. -/
theorem C6_neighbors :
    (∀ (adjacencyList : List (List Nat)) (v w : Nat),
      (getAdjacentVertices adjacencyList v).count w
        = (adjacencyList.getD v []).count w
          + (if v ∈ adjacencyList.getD w [] then 1 else 0))
    ∧ getAdjacentVertices exampleAdjacency 2 = [3, 4, 5, 1]
    ∧ getAdjacentVertices [[1, 1], [0, 0]] 0 = [1, 1, 1] := by
  refine ⟨?_, by decide, by decide⟩
  intro adjacencyList v w
  unfold getAdjacentVertices
  rw [List.count_append]
  rw [show adjacencyList.enum = adjacencyList.enumFrom 0 from rfl]
  rw [count_inbound v w adjacencyList 0]
  congr 1
  by_cases hlt : w < adjacencyList.length
  · have : (0 ≤ w ∧ w - 0 < adjacencyList.length ∧ v ∈ adjacencyList.getD (w - 0) [])
        ↔ v ∈ adjacencyList.getD w [] := by
      simp [Nat.zero_le, hlt]
    rw [if_congr this rfl rfl]
  · have hget : adjacencyList.getD w [] = [] :=
      List.getD_eq_default _ _ (Nat.le_of_not_lt hlt)
    have h1 : ¬ (0 ≤ w ∧ w - 0 < adjacencyList.length ∧ v ∈ adjacencyList.getD (w - 0) []) := by
      rintro ⟨-, hy, -⟩
      omega
    have h2 : ¬ v ∈ adjacencyList.getD w [] := by
      rw [hget]
      exact List.not_mem_nil v
    rw [if_neg h1, if_neg h2]

/-- C1: one layout step sends every vertex `v` of the graph to
`pos[v] + 0.4 * (localAttraction + globalRepulsion)`, where the global
repulsion sums `repulsionForce(pos[v], pos[w], optimumDistance)` over every
other vertex `w != v` and the damping factor is the fixed constant 0.4. -/
theorem C1_layout_step (adjacencyList : List (List Nat)) (optimumDistance : ℝ)
    (positions : List Vec) (v : Nat) (h : v < adjacencyList.length) :
    (makeLayout adjacencyList optimumDistance positions).getD v vecZero
      = V.add (positions.getD v vecZero)
          (V.scalarMult 0.4
            (V.add (specLocalAttraction adjacencyList optimumDistance positions v)
              (specGlobalRepulsion adjacencyList optimumDistance positions v))) := by
  simp only [makeLayout, specLocalAttraction, specGlobalRepulsion, getVertices_eq_range]
  rw [getD_map_range _ h]
  exact V.add_comm _ _

/-- C1 witness: the step formula instantiated on the two-vertex graph `[[],[0]]`
with optimum distance 1 at vertex 1. -/
theorem C1_layout_step_witness :
    (makeLayout [[], [0]] 1 [⟨0, 0⟩, ⟨1, 0⟩]).getD 1 vecZero
      = V.add (([⟨0, 0⟩, ⟨1, 0⟩] : List Vec).getD 1 vecZero)
          (V.scalarMult 0.4
            (V.add (specLocalAttraction [[], [0]] 1 [⟨0, 0⟩, ⟨1, 0⟩] 1)
              (specGlobalRepulsion [[], [0]] 1 [⟨0, 0⟩, ⟨1, 0⟩] 1))) :=
  C1_layout_step [[], [0]] 1 [⟨0, 0⟩, ⟨1, 0⟩] 1 (by decide)

/-- C2: a layout run with a positive optimum distance and a non-negative
iteration count yields exactly `iterations + 1` snapshots and then stops; with
`iterations = 0` it yields exactly the single random initial snapshot and
applies no relaxation step. -/
theorem C2_snapshot_count (adjacencyList : List (List Nat)) (d : ℝ) (k : ℤ)
    (rand : Nat → ℝ) (_hd : 0 < d) (_hk : 0 ≤ k) :
    (runLayout adjacencyList d k rand).length = k.toNat + 1
    ∧ (k = 0 → runLayout adjacencyList d k rand = [initPositions adjacencyList d rand]) := by
  constructor
  · simp only [runLayout, List.length_cons, loopSnapshots_length]
  · intro h0
    subst h0
    rfl

/-- C2 witness: a run on the one-vertex graph with distance 1 and 2 iterations
has exactly 3 snapshots. -/
theorem C2_snapshot_count_witness :
    (runLayout [[]] 1 2 (fun _ => 0)).length = (2 : ℤ).toNat + 1
    ∧ ((2 : ℤ) = 0 → runLayout [[]] 1 2 (fun _ => 0) = [initPositions [[]] 1 (fun _ => 0)]) :=
  C2_snapshot_count [[]] 1 2 (fun _ => 0) (by norm_num) (by decide)

/-- C4 counterexample: with the invalid configuration of optimum distance -5
(non-positive) and iteration count -1 (negative), the layout engine does not
reject the run; it still yields a first snapshot (the random initial one). -/
theorem C4_reject_counterexample :
    ((-5 : ℝ) ≤ 0) ∧ ((-1 : ℤ) < 0)
    ∧ (runLayout [[]] (-5) (-1) (fun _ => 0)).length = 1
    ∧ (runLayout [[]] (-5) (-1) (fun _ => 0)).getD 0 []
        = initPositions [[]] (-5) (fun _ => 0) :=
  ⟨by norm_num, by decide, rfl, rfl⟩

/-- C4 (amended): the layout engine performs no configuration validation at
all: for every optimum distance (including non-positive ones) and every
iteration count it yields the initial snapshot first, and a negative iteration
count merely results in zero relaxation steps, so exactly one snapshot. -/
theorem C4_no_validation (adjacencyList : List (List Nat)) (d : ℝ) (k : ℤ)
    (rand : Nat → ℝ) :
    (runLayout adjacencyList d k rand).getD 0 [] = initPositions adjacencyList d rand
    ∧ (k < 0 → (runLayout adjacencyList d k rand).length = 1) := by
  refine ⟨rfl, fun hk => ?_⟩
  have h0 : k.toNat = 0 := Int.toNat_of_nonpos (le_of_lt hk)
  simp only [runLayout, List.length_cons, loopSnapshots_length, h0]

/-- C4 witness: the no-validation behavior instantiated at distance -5 and
iteration count -1. -/
theorem C4_no_validation_witness :
    ((runLayout [[0]] (-5) (-1) (fun _ => 0)).getD 0 []
        = initPositions [[0]] (-5) (fun _ => 0))
    ∧ ((-1 : ℤ) < 0 → (runLayout [[0]] (-5) (-1) (fun _ => 0)).length = 1) :=
  C4_no_validation [[0]] (-5) (-1) (fun _ => 0)

/-- C5: every snapshot of a run is a pure function of the initial snapshot —
snapshot `i` equals the `i`-fold iterate of the step function on the initial
placement, so producing later snapshots leaves it unaltered — and snapshot
`i + 1` is obtained by applying the step function to the complete frozen
snapshot `i` (no new position is read while computing a step). -/
theorem C5_snapshot_purity (adjacencyList : List (List Nat)) (d : ℝ) (k : ℤ)
    (rand : Nat → ℝ) (i : Nat) (h : i ≤ k.toNat) :
    (runLayout adjacencyList d k rand).getD i []
      = (makeLayout adjacencyList d)^[i] (initPositions adjacencyList d rand)
    ∧ (i < k.toNat → (runLayout adjacencyList d k rand).getD (i + 1) []
        = makeLayout adjacencyList d ((runLayout adjacencyList d k rand).getD i [])) := by
  have hfirst : ∀ j, j ≤ k.toNat → (runLayout adjacencyList d k rand).getD j []
      = (makeLayout adjacencyList d)^[j] (initPositions adjacencyList d rand) := by
    intro j hj
    cases j with
    | zero => rfl
    | succ m =>
      rw [show runLayout adjacencyList d k rand
          = initPositions adjacencyList d rand
            :: loopSnapshots (makeLayout adjacencyList d)
              (initPositions adjacencyList d rand) k.toNat from rfl]
      rw [List.getD_cons_succ]
      exact loopSnapshots_getD _ _ _ m (by omega)
  refine ⟨hfirst i h, fun h2 => ?_⟩
  rw [hfirst (i + 1) (by omega), hfirst i h, Function.iterate_succ_apply']

/-- C5 witness: snapshot purity instantiated on the one-vertex graph at
snapshot index 0 of a one-iteration run. -/
theorem C5_snapshot_purity_witness :
    ((runLayout [[]] 1 1 (fun _ => 0)).getD 0 []
      = (makeLayout [[]] 1)^[0] (initPositions [[]] 1 (fun _ => 0)))
    ∧ (0 < (1 : ℤ).toNat → (runLayout [[]] 1 1 (fun _ => 0)).getD (0 + 1) []
        = makeLayout [[]] 1 ((runLayout [[]] 1 1 (fun _ => 0)).getD 0 [])) :=
  C5_snapshot_purity [[]] 1 1 (fun _ => 0) 0 (by decide)

/-- C9: the initial random draws are the only source of nondeterminism: two
runs whose random sources agree on every draw the initial placement makes
(two per vertex) produce identical snapshot sequences. -/
theorem C9_determinism (adjacencyList : List (List Nat)) (d : ℝ) (k : ℤ)
    (r1 r2 : Nat → ℝ) (h : ∀ n, n < 2 * adjacencyList.length → r1 n = r2 n) :
    runLayout adjacencyList d k r1 = runLayout adjacencyList d k r2 := by
  have hinit : initPositions adjacencyList d r1 = initPositions adjacencyList d r2 := by
    unfold initPositions
    rw [getVertices_eq_range]
    apply List.map_congr_left
    intro v hv
    rw [List.mem_range] at hv
    rw [h (2 * v) (by omega), h (2 * v + 1) (by omega)]
  unfold runLayout
  rw [hinit]

/-- C9 witness: two random sources that agree on the two draws made by the
one-vertex graph give identical runs even though they differ later. -/
theorem C9_determinism_witness :
    runLayout [[]] 1 3 (fun _ => 0)
      = runLayout [[]] 1 3 (fun n => if n < 5 then (0 : ℝ) else 1) := by
  refine C9_determinism [[]] 1 3 (fun _ => 0) (fun n => if n < 5 then (0 : ℝ) else 1) ?_
  intro n hn
  have h5 : n < 5 := by
    simp only [List.length_cons, List.length_nil] at hn
    omega
  show (0 : ℝ) = if n < 5 then (0 : ℝ) else 1
  rw [if_pos h5]

theorem C7_initial_range (adjacencyList : List (List Nat)) (d : ℝ) (k : ℤ)
    (rand : Nat → ℝ) (hd : 0 < d) (hr : ∀ n, 0 ≤ rand n ∧ rand n < 1)
    (v : Nat) (hv : v < adjacencyList.length) :
    (-d ≤ (((runLayout adjacencyList d k rand).getD 0 []).getD v vecZero).x
      ∧ (((runLayout adjacencyList d k rand).getD 0 []).getD v vecZero).x ≤ d)
    ∧ (-d ≤ (((runLayout adjacencyList d k rand).getD 0 []).getD v vecZero).y
      ∧ (((runLayout adjacencyList d k rand).getD 0 []).getD v vecZero).y ≤ d) := by
  have h0 : (runLayout adjacencyList d k rand).getD 0 [] = initPositions adjacencyList d rand := rfl
  rw [h0]
  unfold initPositions
  rw [getVertices_eq_range, getD_map_range _ hv]
  obtain ⟨ha, hb⟩ := hr (2 * v)
  obtain ⟨hc, he⟩ := hr (2 * v + 1)
  refine ⟨⟨?_, ?_⟩, ⟨?_, ?_⟩⟩
  · show -d ≤ (rand (2 * v) - 0.5) * 2 * d
    nlinarith
  · show (rand (2 * v) - 0.5) * 2 * d ≤ d
    nlinarith
  · show -d ≤ (rand (2 * v + 1) - 0.5) * 2 * d
    nlinarith
  · show (rand (2 * v + 1) - 0.5) * 2 * d ≤ d
    nlinarith

theorem C8_spring_sign (u v : Vec) (d : ℝ) (hd : 0 < d) :
    (V.length (V.sub v u) = d → calculateSpringForce u v d = vecZero)
    ∧ (0 < springMagnitude u v d ↔ d < V.length (V.sub v u))
    ∧ (springMagnitude u v d < 0
        ↔ (0 < V.length (V.sub v u) ∧ V.length (V.sub v u) < d)) := by
  have hL0 : 0 ≤ V.length (V.sub v u) := Real.sqrt_nonneg _
  refine ⟨?_, ?_, ?_⟩
  · intro hLd
    have hmag : d * Real.log (V.length (V.sub v u) / d) = 0 := by
      rw [hLd, div_self (ne_of_gt hd), Real.log_one, mul_zero]
    simp only [calculateSpringForce, hmag]
    unfold V.scalarMult vecZero
    ext <;> simp
  · unfold springMagnitude
    constructor
    · intro hpos
      have hlog : 0 < Real.log (V.length (V.sub v u) / d) := by
        rcases mul_pos_iff.mp hpos with ⟨-, h⟩ | ⟨h, -⟩
        · exact h
        · linarith
      have hx1 : 1 < V.length (V.sub v u) / d := by
        by_contra hle
        push_neg at hle
        have := Real.log_nonpos (div_nonneg hL0 (le_of_lt hd)) hle
        linarith
      exact (one_lt_div hd).mp hx1
    · intro hdL
      exact mul_pos hd (Real.log_pos ((one_lt_div hd).mpr hdL))
  · unfold springMagnitude
    constructor
    · intro hneg
      have hlog : Real.log (V.length (V.sub v u) / d) < 0 := by
        rcases mul_neg_iff.mp hneg with ⟨-, h⟩ | ⟨h, -⟩
        · exact h
        · linarith
      have hx0 : 0 ≤ V.length (V.sub v u) / d := div_nonneg hL0 (le_of_lt hd)
      have hxpos : 0 < V.length (V.sub v u) / d := by
        rcases eq_or_lt_of_le hx0 with h | h
        · rw [← h] at hlog
          simp [Real.log_zero] at hlog
        · exact h
      have hx1 : V.length (V.sub v u) / d < 1 := by
        by_contra hge
        push_neg at hge
        have := Real.log_nonneg hge
        linarith
      refine ⟨?_, (div_lt_one hd).mp hx1⟩
      rcases div_pos_iff.mp hxpos with ⟨h1, -⟩ | ⟨-, h2⟩
      · exact h1
      · linarith
    · rintro ⟨hL, hLd⟩
      exact mul_neg_of_pos_of_neg hd
        (Real.log_neg (div_pos hL hd) ((div_lt_one hd).mpr hLd))

theorem C10_norm_unguarded :
    V.norm ⟨0, 0⟩ = ⟨0, 0⟩
    ∧ V.length (V.norm ⟨0, 0⟩) = 0
    ∧ (∀ w : Vec, V.length w ≠ 0 → V.length (V.norm w) = 1) := by
  have hzero : V.norm ⟨0, 0⟩ = ⟨0, 0⟩ := by
    unfold V.norm V.scalarMult
    ext <;> simp
  refine ⟨hzero, ?_, ?_⟩
  · rw [hzero]
    unfold V.length
    simp
  · intro w hw
    have hL : 0 < V.length w := lt_of_le_of_ne (Real.sqrt_nonneg _) (Ne.symm hw)
    unfold V.norm V.scalarMult V.length
    show Real.sqrt ((1 / V.length w * w.x) * (1 / V.length w * w.x)
      + (1 / V.length w * w.y) * (1 / V.length w * w.y)) = 1
    have hsq : (1 / V.length w * w.x) * (1 / V.length w * w.x)
        + (1 / V.length w * w.y) * (1 / V.length w * w.y)
        = (1 / V.length w) ^ 2 * (w.x * w.x + w.y * w.y) := by ring
    rw [hsq, Real.sqrt_mul (sq_nonneg _), Real.sqrt_sq (by positivity)]
    rw [show Real.sqrt (w.x * w.x + w.y * w.y) = V.length w from rfl]
    rw [one_div, inv_mul_cancel₀ (ne_of_gt hL)]

/-- C7 witness: the initial-snapshot coordinate bounds instantiated on the
one-vertex graph with distance 1 and the constant-zero random source. -/
theorem C7_initial_range_witness :
    ((-(1 : ℝ) ≤ (((runLayout [[]] 1 0 (fun _ => 0)).getD 0 []).getD 0 vecZero).x
      ∧ (((runLayout [[]] 1 0 (fun _ => 0)).getD 0 []).getD 0 vecZero).x ≤ 1)
    ∧ (-(1 : ℝ) ≤ (((runLayout [[]] 1 0 (fun _ => 0)).getD 0 []).getD 0 vecZero).y
      ∧ (((runLayout [[]] 1 0 (fun _ => 0)).getD 0 []).getD 0 vecZero).y ≤ 1)) :=
  C7_initial_range [[]] 1 0 (fun _ => 0) (by norm_num)
    (fun _ => ⟨le_refl 0, by norm_num⟩) 0 (by decide)

/-- C8 witness: the spring force sign characterization instantiated at
`u = (0,0)`, `v = (1,0)` and optimum distance 1. -/
theorem C8_spring_sign_witness :
    (V.length (V.sub ⟨1, 0⟩ ⟨0, 0⟩) = 1 → calculateSpringForce ⟨0, 0⟩ ⟨1, 0⟩ 1 = vecZero)
    ∧ (0 < springMagnitude ⟨0, 0⟩ ⟨1, 0⟩ 1 ↔ 1 < V.length (V.sub ⟨1, 0⟩ ⟨0, 0⟩))
    ∧ (springMagnitude ⟨0, 0⟩ ⟨1, 0⟩ 1 < 0
        ↔ (0 < V.length (V.sub ⟨1, 0⟩ ⟨0, 0⟩) ∧ V.length (V.sub ⟨1, 0⟩ ⟨0, 0⟩) < 1)) :=
  C8_spring_sign ⟨0, 0⟩ ⟨1, 0⟩ 1 (by norm_num)

/-- C10 witness: the vector (3,4) has non-zero length 5, and normalizing it
yields a vector of length 1. -/
theorem C10_norm_unguarded_witness :
    V.length (⟨3, 4⟩ : Vec) ≠ 0 ∧ V.length (V.norm ⟨3, 4⟩) = 1 := by
  have h34 : V.length (⟨3, 4⟩ : Vec) ≠ 0 := by
    unfold V.length
    show Real.sqrt ((3 : ℝ) * 3 + 4 * 4) ≠ 0
    rw [show ((3 : ℝ) * 3 + 4 * 4) = 5 ^ 2 by norm_num, Real.sqrt_sq (by norm_num)]
    norm_num
  exact ⟨h34, C10_norm_unguarded.2.2 ⟨3, 4⟩ h34⟩
